import Mathlib

/-!
Verification of the token layer of `rs-typed-parser` (`src/src/token.rs`):
the `TokenDef` trait and its defaults, the type-erased `TokenType`
descriptor, the `AnyToken` matched-token pair, the built-in `Eof` kind, and
the `TokenDef` implementations generated by the `define_token!` macro.

Source text is modelled as a list of characters; byte offsets, byte lengths
and UTF-8 character boundaries are computed explicitly so that Rust's
byte-indexed `str` slicing (which panics on out-of-bounds or non-boundary
indices) is modelled faithfully, with `Option` capturing the panic.

Collaborators of `token.rs` that live elsewhere in the crate
(`crate::parse::Location`, `LocationRange`, `lex_exact`, `lex_regex`) are
modelled from the specification, as marked on each definition.
-/

namespace RsTypedParser

/-- Number of bytes in the UTF-8 encoding of one character. -/
def charBytes (c : Char) : Nat :=
  if c.toNat < 128 then 1
  else if c.toNat < 2048 then 2
  else if c.toNat < 65536 then 3
  else 4

/-- Number of bytes in the UTF-8 encoding of a character list, modelling
Rust `str::len` on the source text. -/
def utf8Len (s : List Char) : Nat := (s.map charBytes).sum

/-- Whether byte index `i` falls on a UTF-8 character boundary of `s`,
modelling Rust `str::is_char_boundary`; indices past the end of the text are
not boundaries. -/
def isCharBoundary : List Char → Nat → Bool
  | _, 0 => true
  | [], _ + 1 => false
  | c :: rest, i + 1 =>
    if charBytes c ≤ i + 1 then isCharBoundary rest (i + 1 - charBytes c)
    else false

/-- Characters of `s` after skipping `n` bytes (total helper, meaningful when
`n` is a character boundary of `s`). -/
def dropBytes : List Char → Nat → List Char
  | s, 0 => s
  | [], _ + 1 => []
  | c :: rest, i + 1 => dropBytes rest (i + 1 - charBytes c)

/-- Characters in the first `n` bytes of `s` (total helper, meaningful when
`n` is a character boundary of `s`). -/
def takeBytes : List Char → Nat → List Char
  | _, 0 => []
  | [], _ + 1 => []
  | c :: rest, i + 1 => c :: takeBytes rest (i + 1 - charBytes c)

/-- Rust string slicing `&s[a..b]` by byte indices: `none` exactly when Rust
would panic, which per the documented contract of `str` indexing happens when
`a > b`, when `b` exceeds the byte length, or when either index is not a
character boundary. -/
def byteSlice (s : List Char) (a b : Nat) : Option (List Char) :=
  if a ≤ b ∧ b ≤ utf8Len s ∧ isCharBoundary s a = true ∧ isCharBoundary s b = true then
    some (takeBytes (dropBytes s a) (b - a))
  else none

/-- Escape one character the way the Rust `\x7b:?\x7d` formatting of a string
slice renders it; covers the printable characters and the common escapes,
which is the fragment the formatting code of this crate is exercised on. -/
def escapeDebugChar (c : Char) : List Char :=
  if c = '"' then ['\\', '"']
  else if c = '\\' then ['\\', '\\']
  else if c = '\n' then ['\\', 'n']
  else if c = '\t' then ['\\', 't']
  else if c = '\r' then ['\\', 'r']
  else [c]

/-- Rust debug rendering of a string slice: surrounding double quotes with
escaped contents. -/
def rustDebugStr (s : List Char) : String :=
  String.mk ('"' :: (s.map escapeDebugChar).flatten ++ ['"'])

/-- Single-quote character, used by the exact-literal `name()`. -/
def squote : Char := Char.ofNat 39

/-- Rust `stringify!` applied to a string literal: the literal's source form,
its text surrounded by double quotes (modelled for literals whose source form
contains no escape sequences). -/
def rustStringify (lit : List Char) : String :=
  String.mk ('"' :: lit ++ ['"'])

/-- Modelled from the spec: `crate::parse::Location` is not under `src/`; §6
requires a location exposing a byte offset into the source text. -/
structure Location where
  position : Nat
deriving DecidableEq, Repr

/-- Modelled from the spec: `crate::parse::LocationRange` is not under
`src/`; §6 requires a half-open span with a start and an end location. -/
structure LocationRange where
  start : Location
  «end» : Location
deriving DecidableEq, Repr

/-- Trait default `TokenDef::display_name` (token.rs lines 21-23): returns
`Self::name()`, passed in as `name`. -/
def TokenDef.display_name_default (name : String) : String := name

/-- Trait default `TokenDef::print_debug` (token.rs lines 25-32): writes
`Name("…")` around the debug rendering of
`&src[range.start.position..range.end.position]`; `none` models the panic of
the raw slicing. -/
def TokenDef.print_debug_default (name : String) (src : List Char)
    (range : LocationRange) : Option String :=
  (byteSlice src range.start.position range.«end».position).map
    fun t => name ++ "(" ++ rustDebugStr t ++ ")"

/-- Trait default `TokenDef::print_display` (token.rs lines 34-37): delegates
to `Self::print_debug`, passed in as `print_debug`. -/
def TokenDef.print_display_default
    (print_debug : List Char → LocationRange → Option String) :
    List Char → LocationRange → Option String :=
  print_debug

/-- One concrete implementation of the `TokenDef` trait: the implementing
type's `TypeId` (process-wide unique per type, modelled as a natural number)
together with the trait methods after default resolution. -/
structure TokenDefImpl where
  typeId : Nat
  try_lex : List Char → Location → Option LocationRange
  name : String
  display_name : String
  print_debug : List Char → LocationRange → Option String
  print_display : List Char → LocationRange → Option String

/-- The type-erased descriptor `TokenType` (token.rs lines 45-49): the bound
`name`, `token_id` and `try_lex` of one `TokenDef` type. The Rust fields are
pointers to pure nullary or pure functions, modelled by their values. -/
structure TokenType where
  name : String
  token_id : Nat
  try_lex : List Char → Location → Option LocationRange

/-- Constructor `TokenType::of::<T>` (token.rs lines 84-90). -/
def TokenType.of (T : TokenDefImpl) : TokenType :=
  { name := T.name, token_id := T.typeId, try_lex := T.try_lex }

/-- Equality `impl PartialEq for TokenType` (token.rs lines 57-61): pointer
equality of the two references — passed in as `ptr_eq` — or matching
`TypeId`s. -/
def TokenType.beq (ptr_eq : Bool) (a b : TokenType) : Bool :=
  ptr_eq || (a.token_id == b.token_id)

/-- Ordering `impl Ord for TokenType` (token.rs lines 69-73): compares the
`TypeId`s and nothing else. -/
def TokenType.cmp (a b : TokenType) : Ordering :=
  compare a.token_id b.token_id

/-- Rust `a < b` on `TokenType`: `PartialOrd::partial_cmp` is
`Some(self.cmp(other))` (token.rs lines 63-67), so `<` holds exactly when
`cmp` returns `Less`. -/
def TokenType.lt (a b : TokenType) : Bool :=
  match TokenType.cmp a b with
  | .lt => true
  | _ => false

/-- Hashing `impl Hash for TokenType` (token.rs lines 77-81): only the
`TypeId` is fed to the hasher, modelled as an arbitrary function of it. -/
def TokenType.hash (hasher : Nat → Nat) (self : TokenType) : Nat :=
  hasher self.token_id

/-- Debug `impl Debug for TokenType` (token.rs lines 51-55): writes
`self.name()`. -/
def TokenType.debugFmt (self : TokenType) : String := self.name

/-- Matched token `AnyToken` (token.rs lines 39-43): an erased descriptor
paired with the range it matched. -/
structure AnyToken where
  token_type : TokenType
  range : LocationRange

/-- Erased entry point `TokenType::try_lex` (token.rs lines 100-105): invokes
the bound matcher; on success wraps the returned range together with `self`
into an `AnyToken`. -/
def TokenType.try_lex' (self : TokenType) (src : List Char)
    (location : Location) : Option AnyToken :=
  match self.try_lex src location with
  | none => none
  | some range => some { token_type := self, range := range }

/-- Matcher `Eof::try_lex` (token.rs lines 112-117): succeeds with the empty
range at `location` iff `location.position >= src.len()`. -/
def Eof.try_lex (src : List Char) (location : Location) :
    Option LocationRange :=
  if location.position ≥ utf8Len src then
    some { start := location, «end» := location }
  else none

/-- The `impl TokenDef for Eof` (token.rs lines 111-122): `try_lex` and
`name` (returning "end-of-file") are overridden; `display_name`,
`print_debug` and `print_display` are the trait defaults, instantiated with
the overridden `Self::name` and `Self::print_debug`. The `TypeId` of the
`Eof` type is 0 in this model. -/
def Eof : TokenDefImpl :=
  { typeId := 0
    try_lex := Eof.try_lex
    name := "end-of-file"
    display_name := TokenDef.display_name_default "end-of-file"
    print_debug := TokenDef.print_debug_default "end-of-file"
    print_display :=
      TokenDef.print_display_default (TokenDef.print_debug_default "end-of-file") }

/-- Whether `pat` is a prefix of `s`. -/
def startsWithChars : List Char → List Char → Bool
  | _, [] => true
  | [], _ :: _ => false
  | c :: s, p :: ps => c == p && startsWithChars s ps

/-- Modelled from the spec: `crate::parse::lex_exact` is not under `src/`;
§4.4 says an exact-literal match succeeds iff the source text at `location`
begins with the declared literal, the span covering exactly the literal's
length. -/
def lex_exact (pattern : List Char) (src : List Char) (location : Location) :
    Option LocationRange :=
  if startsWithChars (dropBytes src location.position) pattern then
    some { start := location, «end» := ⟨location.position + utf8Len pattern⟩ }
  else none

/-- Modelled from the spec: the regex engine is an external black box (§1,
§6); this pattern syntax is the fragment the declared patterns of the claims
use — character literals, the digit class `\d`, concatenation, greedy
one-or-more `+`, and numbered capture groups. -/
inductive Regex where
  | char (c : Char)
  | digit
  | seq (a b : Regex)
  | plus (r : Regex)
  | group (idx : Nat) (r : Regex)

/-- Size of a pattern, used to budget the matcher's fuel. -/
def Regex.size : Regex → Nat
  | .char _ => 1
  | .digit => 1
  | .seq a b => a.size + b.size + 1
  | .plus r => r.size + 1
  | .group _ r => r.size + 1

/-- Modelled from the spec: the engine's backtracking matcher. Arguments are
fuel, the pattern, the remaining characters, and the current byte offset
relative to the match start; results are the possible outcomes in priority
order (greedy first), each an unconsumed remainder, an end offset, and the
captured group extents `(index, start, end)`. -/
def matchR : Nat → Regex → List Char → Nat →
    List (List Char × Nat × List (Nat × Nat × Nat))
  | 0, _, _, _ => []
  | _ + 1, .char _, [], _ => []
  | _ + 1, .char c, x :: rest, pos =>
    if x == c then [(rest, pos + charBytes x, [])] else []
  | _ + 1, .digit, [], _ => []
  | _ + 1, .digit, x :: rest, pos =>
    if x.isDigit then [(rest, pos + charBytes x, [])] else []
  | fuel + 1, .seq a b, s, pos =>
    (matchR fuel a s pos).flatMap fun r1 =>
      (matchR fuel b r1.1 r1.2.1).map fun r2 =>
        (r2.1, r2.2.1, r1.2.2 ++ r2.2.2)
  | fuel + 1, .plus r, s, pos =>
    (matchR fuel r s pos).flatMap fun r1 =>
      if r1.2.1 = pos then [r1]
      else
        ((matchR fuel (.plus r) r1.1 r1.2.1).map fun r2 =>
          (r2.1, r2.2.1, r1.2.2 ++ r2.2.2)) ++ [r1]
  | fuel + 1, .group i r, s, pos =>
    (matchR fuel r s pos).map fun r1 =>
      (r1.1, r1.2.1, (i, pos, r1.2.1) :: r1.2.2)

/-- Modelled from the spec: §6 gives the engine interface
`matchAt(compiled, source, offset, groupIndex) -> optional (start, end)
relative to offset`. The macro prefixes every declared pattern with the
start-of-search anchor `\A`, so the match is attempted at `offset` only —
no searching; group index 0 designates the whole match. -/
def matchAt (compiled : Regex) (src : List Char) (offset : Nat)
    (group : Nat) : Option (Nat × Nat) :=
  match matchR ((compiled.size + 1) * (utf8Len src + 2)) compiled
      (dropBytes src offset) 0 with
  | [] => none
  | r :: _ =>
    if group = 0 then some (0, r.2.1)
    else (r.2.2.find? fun t => t.1 == group).map fun t => (t.2.1, t.2.2)

/-- Modelled from the spec: `crate::parse::lex_regex` is not under `src/`;
per §4.4 and §6 it runs the compiled anchored pattern at `location` and turns
the designated capture group's extent, which the engine reports relative to
`location`, into a `LocationRange`. -/
def lex_regex (pattern : Regex) (cap : Nat) (src : List Char)
    (location : Location) : Option LocationRange :=
  (matchAt pattern src location.position cap).map fun e =>
    { start := ⟨location.position + e.1⟩
      «end» := ⟨location.position + e.2⟩ }

/-- The `TokenDef` impl generated by `_define_token!` for a regex declaration
(token.rs lines 135-153 together with lines 226-232): `try_lex` runs the
`\A`-anchored pattern through `lex_regex` with capture index `0 (+ cap)?`;
`name()` is the bare type name (`stringify!`); `print_debug` writes
`<Name "…">`; `print_display` is the trait default, delegating to the
overridden `print_debug`; `display_name()` is overridden to the bare type
name. -/
def regexTokenDef (typeId : Nat) (nm : String) (pattern : Regex)
    (cap : Option Nat) : TokenDefImpl :=
  let pd : List Char → LocationRange → Option String := fun src range =>
    (byteSlice src range.start.position range.«end».position).map
      fun t => "<" ++ nm ++ " " ++ rustDebugStr t ++ ">"
  { typeId := typeId
    try_lex := lex_regex pattern (match cap with | none => 0 | some c => 0 + c)
    name := nm
    display_name := nm
    print_debug := pd
    print_display := TokenDef.print_display_default pd }

/-- The `TokenDef` impl generated by `_define_token!` for an exact-literal
declaration (token.rs lines 154-173 together with lines 226-232): `try_lex`
is `lex_exact` on the declared literal; `name()` is the literal wrapped in
single quotes; `print_debug` writes `Name("…")` around the matched text;
`print_display` writes `stringify!` of the literal — its quoted source form —
ignoring the matched text; `display_name()` is overridden to the bare type
name. -/
def exactTokenDef (typeId : Nat) (nm : String) (pattern : List Char) :
    TokenDefImpl :=
  { typeId := typeId
    try_lex := lex_exact pattern
    name := String.mk (squote :: pattern ++ [squote])
    display_name := nm
    print_debug := fun src range =>
      (byteSlice src range.start.position range.«end».position).map
        fun t => nm ++ "(" ++ rustDebugStr t ++ ")"
    print_display := fun _ _ => some (rustStringify pattern) }

/-- The declaration `struct Let;` with `pattern(exact = "let")`, `TypeId` 1
in this model. -/
def Let : TokenDefImpl := exactTokenDef 1 "Let" ['l', 'e', 't']

/-- The declared pattern `(\d+)px`. -/
def pxPattern : Regex :=
  .seq (.group 1 (.plus .digit)) (.seq (.char 'p') (.char 'x'))

/-- The declaration `struct Px;` with `pattern(regex = r"(\d+)px",
capture = 1)`, `TypeId` 2 in this model. -/
def Px : TokenDefImpl := regexTokenDef 2 "Px" pxPattern (some 1)

/-- The declared pattern `a(b)`, whose capture group 1 does not start at the
start of the whole match. -/
def abPattern : Regex := .seq (.char 'a') (.group 1 (.char 'b'))

/-- The declaration `struct Ab;` with `pattern(regex = "a(b)", capture = 1)`,
`TypeId` 3 in this model. -/
def Ab : TokenDefImpl := regexTokenDef 3 "Ab" abPattern (some 1)

/-- Strict comparison of two handles holds exactly when the first identity
token is strictly smaller. -/
theorem tokenType_lt_iff (a b : TokenType) :
    TokenType.lt a b = true ↔ a.token_id < b.token_id := by
  unfold TokenType.lt TokenType.cmp
  rcases Nat.lt_trichotomy a.token_id b.token_id with h | h | h
  · rw [Nat.compare_eq_lt.mpr h]
    simpa using h
  · rw [Nat.compare_eq_eq.mpr h, h]
    simp
  · rw [Nat.compare_eq_gt.mpr h]
    simp
    omega

/-- A successful `lex_regex` result is exactly the designated capture group's
extent reported by the engine, offset by the location. -/
theorem lex_regex_some (p : Regex) (cap : Nat) (src : List Char)
    (loc : Location) (r : LocationRange)
    (h : lex_regex p cap src loc = some r) :
    ∃ s e, matchAt p src loc.position cap = some (s, e) ∧
      r.start.position = loc.position + s ∧
      r.«end».position = loc.position + e := by
  unfold lex_regex at h
  cases hm : matchAt p src loc.position cap with
  | none => rw [hm] at h; cases h
  | some se =>
    obtain ⟨s1, s2⟩ := se
    rw [hm] at h
    simp only [Option.map_some'] at h
    cases h
    exact ⟨s1, s2, rfl, rfl, rfl⟩

/-- With group index 0 the engine reports the whole anchored match, whose
relative start is 0. -/
theorem matchAt_zero_start (p : Regex) (src : List Char) (off : Nat)
    (s e : Nat) (h : matchAt p src off 0 = some (s, e)) : s = 0 := by
  unfold matchAt at h
  cases hm : matchR ((p.size + 1) * (utf8Len src + 2)) p (dropBytes src off) 0 with
  | nil => rw [hm] at h; cases h
  | cons r rest =>
    rw [hm] at h
    simp at h
    omega

/-- Strict comparison of handles is false when the first identity token is
not strictly smaller. -/
theorem tokenType_lt_eq_false (a b : TokenType)
    (h : ¬ a.token_id < b.token_id) : TokenType.lt a b = false := by
  cases hb : TokenType.lt a b
  · rfl
  · exact absurd ((tokenType_lt_iff a b).mp hb) h

/-- Claim C1: two identity handles obtained independently for the same
declared kind compare equal under every pointer-equality outcome, hash
identically under every hasher, and neither orders strictly before the
other; in general handle equality computes pointer equality or matching
identity tokens. -/
theorem C1_same_kind_handles (T : TokenDefImpl) (pe : Bool)
    (hasher : Nat → Nat) :
    TokenType.beq pe (TokenType.of T) (TokenType.of T) = true ∧
    TokenType.hash hasher (TokenType.of T) =
      TokenType.hash hasher (TokenType.of T) ∧
    TokenType.lt (TokenType.of T) (TokenType.of T) = false ∧
    ∀ a b pq, TokenType.beq pq a b = (pq || (a.token_id == b.token_id)) := by
  refine ⟨?_, rfl, ?_, fun a b pq => rfl⟩
  · simp [TokenType.beq]
  · exact tokenType_lt_eq_false _ _ (Nat.lt_irrefl _)

/-- Claim C2: identity handles for two distinct declared kinds are unequal
and exactly one strict ordering holds between them; the total order computes
from the identity tokens alone, never from the names. -/
theorem C2_distinct_kind_handles (T U : TokenDefImpl) (pe : Bool)
    (hid : T.typeId ≠ U.typeId)
    (hptr : pe = true →
      (TokenType.of T).token_id = (TokenType.of U).token_id) :
    TokenType.beq pe (TokenType.of T) (TokenType.of U) = false ∧
    ((TokenType.lt (TokenType.of T) (TokenType.of U) = true ∧
      TokenType.lt (TokenType.of U) (TokenType.of T) = false) ∨
     (TokenType.lt (TokenType.of U) (TokenType.of T) = true ∧
      TokenType.lt (TokenType.of T) (TokenType.of U) = false)) ∧
    ∀ a b, TokenType.cmp a b = compare a.token_id b.token_id := by
  refine ⟨?_, ?_, fun a b => rfl⟩
  · cases pe with
    | true => exact absurd (hptr rfl) hid
    | false => simp [TokenType.beq, TokenType.of, hid]
  · rcases Nat.lt_trichotomy T.typeId U.typeId with h | h | h
    · exact Or.inl ⟨(tokenType_lt_iff (TokenType.of T) (TokenType.of U)).mpr h,
        tokenType_lt_eq_false _ _ (Nat.lt_asymm h)⟩
    · exact absurd h hid
    · exact Or.inr ⟨(tokenType_lt_iff (TokenType.of U) (TokenType.of T)).mpr h,
        tokenType_lt_eq_false _ _ (Nat.lt_asymm h)⟩

/-- Witness for claim C2 at the concrete kinds `Eof` and `Let`. -/
theorem C2_distinct_kind_handles_witness :
    TokenType.beq false (TokenType.of Eof) (TokenType.of Let) = false :=
  (C2_distinct_kind_handles Eof Let false (by decide)
    (by intro h; exact absurd h (by decide))).1

/-- Claim C3: the erased entry point returns None exactly when the bound
matcher does, and on success wraps exactly the returned span together with
the handle itself into the matched token. -/
theorem C3_try_lex_erased (tt : TokenType) (src : List Char)
    (loc : Location) :
    (TokenType.try_lex' tt src loc = none ↔ tt.try_lex src loc = none) ∧
    ∀ r, tt.try_lex src loc = some r →
      TokenType.try_lex' tt src loc = some { token_type := tt, range := r } := by
  constructor
  · cases h : tt.try_lex src loc <;> simp [TokenType.try_lex', h]
  · intro r hr
    simp [TokenType.try_lex', hr]

/-- Witness for claim C3: the erased Eof descriptor at the end of "ab". -/
theorem C3_try_lex_erased_witness :
    TokenType.try_lex' (TokenType.of Eof) ['a', 'b'] ⟨2⟩ =
      some { token_type := TokenType.of Eof, range := ⟨⟨2⟩, ⟨2⟩⟩ } :=
  (C3_try_lex_erased (TokenType.of Eof) ['a', 'b'] ⟨2⟩).2 ⟨⟨2⟩, ⟨2⟩⟩ rfl

/-- Claim C4: Eof's matcher succeeds with the empty span at the location
exactly when the position is at or past the end of the source; concretely,
on a length-5 source it yields span [5,5) at offset 5 and fails at offset 4. -/
theorem C4_eof_try_lex (src : List Char) (loc : Location) :
    (utf8Len src ≤ loc.position →
      Eof.try_lex src loc = some { start := loc, «end» := loc }) ∧
    (loc.position < utf8Len src → Eof.try_lex src loc = none) ∧
    Eof.try_lex ['a', 'b', 'c', 'd', 'e'] ⟨5⟩ =
      some { start := ⟨5⟩, «end» := ⟨5⟩ } ∧
    Eof.try_lex ['a', 'b', 'c', 'd', 'e'] ⟨4⟩ = none := by
  refine ⟨fun h => ?_, fun h => ?_, by decide, by decide⟩
  · unfold Eof.try_lex
    rw [if_pos h]
  · unfold Eof.try_lex
    rw [if_neg]
    omega

/-- Witness for claim C4 at position 3 of the two-byte source "ab". -/
theorem C4_eof_try_lex_witness :
    Eof.try_lex ['a', 'b'] ⟨3⟩ = some { start := ⟨3⟩, «end» := ⟨3⟩ } :=
  (C4_eof_try_lex ['a', 'b'] ⟨3⟩).1 (by decide)

/-- Counterexample to claim C5: the regex kind `Ab` (pattern `a(b)` with
capture group 1) matches source "ab" at location 0 with span [1,2), whose
start is not the given location. -/
theorem C5_span_start_counterexample :
    TokenDefImpl.try_lex Ab ['a', 'b'] ⟨0⟩ =
      some { start := ⟨1⟩, «end» := ⟨2⟩ } ∧
    ({ start := ⟨1⟩, «end» := ⟨2⟩ } : LocationRange).start ≠ (⟨0⟩ : Location) :=
  ⟨by decide, by decide⟩

/-- Claim C5 amended: a successful match of the Eof kind, of an exact-literal
kind, or of a regex kind with capture group 0 yields a span starting exactly
at the given location; a regex kind in general yields the designated capture
group's extent offset from the location, so its span starts at the location
plus the group's relative start, which can be positive. -/
theorem C5_span_start_amended :
    (∀ src loc r, Eof.try_lex src loc = some r → r.start = loc) ∧
    (∀ pat src loc r, lex_exact pat src loc = some r → r.start = loc) ∧
    (∀ p src loc r, lex_regex p 0 src loc = some r → r.start = loc) ∧
    ∀ p cap src loc r, lex_regex p cap src loc = some r →
      ∃ s e, matchAt p src loc.position cap = some (s, e) ∧
        r.start.position = loc.position + s ∧
        r.«end».position = loc.position + e := by
  refine ⟨?_, ?_, ?_, fun p cap src loc r h => lex_regex_some p cap src loc r h⟩
  · intro src loc r h
    unfold Eof.try_lex at h
    split at h
    · cases h; rfl
    · cases h
  · intro pat src loc r h
    unfold lex_exact at h
    split at h
    · cases h; rfl
    · cases h
  · intro p src loc r h
    obtain ⟨s, e, hm, hs, he⟩ := lex_regex_some p 0 src loc r h
    have hz : s = 0 := matchAt_zero_start p src loc.position s e hm
    subst hz
    cases r with
    | mk st en =>
      cases st with
      | mk p1 =>
        cases loc with
        | mk p2 =>
          simp only at hs
          simp [hs]

/-- Witness for claim C5 amended: the whole-match (capture 0) variant of the
Px pattern on "12px" starts at the location. -/
theorem C5_span_start_amended_witness :
    ({ start := ⟨0⟩, «end» := ⟨4⟩ } : LocationRange).start = (⟨0⟩ : Location) :=
  C5_span_start_amended.2.2.1 pxPattern ['1', '2', 'p', 'x'] ⟨0⟩ ⟨⟨0⟩, ⟨4⟩⟩
    (by decide)

/-- Claim C6: the exact-literal kind Let debug-prints `Let("let")` for span
[0,3) of source "let", and its display output is the declared literal in its
quoted source form, whatever the matched text is. -/
theorem C6_exact_formats :
    TokenDefImpl.print_debug Let ['l', 'e', 't'] ⟨⟨0⟩, ⟨3⟩⟩ =
      some "Let(\"let\")" ∧
    ∀ src range, TokenDefImpl.print_display Let src range = some "\"let\"" := by
  refine ⟨by decide, ?_⟩
  intro src range
  show some (rustStringify ['l', 'e', 't']) = some "\"let\""
  decide

/-- Claim C7: a regex kind's matcher runs the anchored pattern at the
location with capture index `0 (+ cap)?` and converts the designated capture
group's extent; with no declared capture it passes 0; concretely the kind Px
(pattern `(\d+)px`, capture 1) on "12px" at offset 0 yields span [0,2), and
its debug format is `<Px "12">`. -/
theorem C7_regex_kind (pat : Regex) (c : Nat) (src : List Char)
    (loc : Location) (r : LocationRange) (typeId : Nat) (nm : String) :
    ((regexTokenDef typeId nm pat (some c)).try_lex src loc = some r →
      ∃ s e, matchAt pat src loc.position (0 + c) = some (s, e) ∧
        r.start.position = loc.position + s ∧
        r.«end».position = loc.position + e) ∧
    (regexTokenDef typeId nm pat none).try_lex = lex_regex pat 0 ∧
    TokenDefImpl.try_lex Px ['1', '2', 'p', 'x'] ⟨0⟩ =
      some { start := ⟨0⟩, «end» := ⟨2⟩ } ∧
    TokenDefImpl.print_debug Px ['1', '2', 'p', 'x'] ⟨⟨0⟩, ⟨2⟩⟩ =
      some "<Px \"12\">" := by
  refine ⟨fun h => lex_regex_some pat (0 + c) src loc r h, rfl, by decide,
    by decide⟩

/-- Witness for claim C7 at the kind Px on source "12px". -/
theorem C7_regex_kind_witness :
    ∃ s e, matchAt pxPattern ['1', '2', 'p', 'x']
        (Location.mk 0).position (0 + 1) = some (s, e) ∧
      (LocationRange.mk ⟨0⟩ ⟨2⟩).start.position = (Location.mk 0).position + s ∧
      (LocationRange.mk ⟨0⟩ ⟨2⟩).«end».position = (Location.mk 0).position + e :=
  (C7_regex_kind pxPattern 1 ['1', '2', 'p', 'x'] ⟨0⟩ ⟨⟨0⟩, ⟨2⟩⟩ 2 "Px").1
    (by decide)

/-- Claim C8: Eof's display name is the fixed string "end-of-file", because
`name()` is overridden to that string and `display_name()` is the trait
default, which returns `name()`. -/
theorem C8_eof_display_name :
    TokenDefImpl.display_name Eof = "end-of-file" ∧
    TokenDefImpl.name Eof = "end-of-file" ∧
    TokenDefImpl.display_name Eof =
      TokenDef.display_name_default (TokenDefImpl.name Eof) :=
  ⟨rfl, rfl, rfl⟩

/-- Claim C9: every macro-generated kind overrides `display_name()` to the
bare type name; an exact-literal kind's `name()` is the declared literal in
single quotes, so for a type name without a single-quote character (every
Rust identifier) the two differ, reversing the trait default under which
`display_name()` equals `name()`; and the erased handle's debug output
prints `name()`, hence the quoted literal. -/
theorem C9_macro_display_names (typeId : Nat) (nm : String) (lit : List Char)
    (pat : Regex) (cap : Option Nat)
    (hnm : nm.data.all (fun c => c != squote) = true) :
    (exactTokenDef typeId nm lit).display_name = nm ∧
    (regexTokenDef typeId nm pat cap).display_name = nm ∧
    (exactTokenDef typeId nm lit).name =
      String.mk (squote :: lit ++ [squote]) ∧
    (exactTokenDef typeId nm lit).name ≠
      (exactTokenDef typeId nm lit).display_name ∧
    TokenType.debugFmt (TokenType.of (exactTokenDef typeId nm lit)) =
      String.mk (squote :: lit ++ [squote]) ∧
    ∀ n, TokenDef.display_name_default n = n := by
  refine ⟨rfl, rfl, rfl, ?_, rfl, fun n => rfl⟩
  intro h
  have hd : nm.data = squote :: (lit ++ [squote]) := by
    have hc := congrArg String.data h
    simpa using hc.symm
  rw [hd] at hnm
  simp [List.all_cons] at hnm

/-- Witness for claim C9 at the kind Let. -/
theorem C9_macro_display_names_witness :
    (exactTokenDef 1 "Let" ['l', 'e', 't']).name ≠
      (exactTokenDef 1 "Let" ['l', 'e', 't']).display_name :=
  (C9_macro_display_names 1 "Let" ['l', 'e', 't'] pxPattern none
    (by decide)).2.2.2.1

/-- Claim C10: the default debug formatter slices the source at the span's
raw byte positions, so a non-panicking run forces both span endpoints within
the byte length and on character boundaries, and every span violating that
precondition makes the default debug formatter — and the default display
formatter, which delegates to it — panic (modelled as `none`). -/
theorem C10_print_debug_panic (nm : String) (src : List Char)
    (range : LocationRange) :
    ((TokenDef.print_debug_default nm src range).isSome = true →
      range.start.position ≤ utf8Len src ∧
      range.«end».position ≤ utf8Len src ∧
      isCharBoundary src range.start.position = true ∧
      isCharBoundary src range.«end».position = true) ∧
    (¬(range.start.position ≤ utf8Len src ∧
       range.«end».position ≤ utf8Len src ∧
       isCharBoundary src range.start.position = true ∧
       isCharBoundary src range.«end».position = true) →
      TokenDef.print_debug_default nm src range = none ∧
      TokenDef.print_display_default (TokenDef.print_debug_default nm) src
        range = none) := by
  unfold TokenDef.print_display_default TokenDef.print_debug_default byteSlice
  split
  case isTrue hc =>
    exact ⟨fun _ => ⟨le_trans hc.1 hc.2.1, hc.2.1, hc.2.2.1, hc.2.2.2⟩,
      fun hn => absurd ⟨le_trans hc.1 hc.2.1, hc.2.1, hc.2.2.1, hc.2.2.2⟩ hn⟩
  case isFalse hc =>
    exact ⟨fun h => by simp at h, fun _ => ⟨rfl, rfl⟩⟩

/-- Witness for claim C10: span [0,2) over the one-byte source "a". -/
theorem C10_print_debug_panic_witness :
    TokenDef.print_debug_default "T" ['a'] ⟨⟨0⟩, ⟨2⟩⟩ = none :=
  ((C10_print_debug_panic "T" ['a'] ⟨⟨0⟩, ⟨2⟩⟩).2 (by decide)).1

end RsTypedParser
